import Mathlib

/-!
Verification of the starlight-shorts drama platform backend.

Strings are modelled as lists of characters (JS strings), numeric scores as
rationals (JS numbers), and the external stores (MongoDB, Redis) as explicit
state passed to the translated functions.  Each definition below is a direct
translation of the TypeScript function named in its doc comment.
-/

/-- Model of JS Math.min on two numbers. -/
def minQ (a b : ℚ) : ℚ := if a ≤ b then a else b

/-- Model of JS Math.max on two numbers. -/
def maxQ (a b : ℚ) : ℚ := if a ≤ b then b else a

/-- Model of JS String.prototype.toLowerCase on a list of characters. -/
def toLowerStr (s : List Char) : List Char := s.map Char.toLower

/-- Model of JS String.prototype.includes: the needle occurs contiguously in
the haystack.  Decidable by scanning every start offset. -/
def containsSub (hay needle : List Char) : Bool :=
  (List.range (hay.length + 1)).any fun i => needle.isPrefixOf (hay.drop i)

/-- Inner loop of SearchService.levenshteinDistance
(drama-platform/backend/src/services/AuthService.ts, lines 663-691): given the
previous matrix row, the value to the left in the current row, and the
remaining characters of str1, produce the rest of the current row.  At column
j the head of prev is matrix[i-1][j-1] and the next entry is matrix[i-1][j]. -/
def levRowAux (c : Char) : List Char → Nat → List Nat → List Nat
  | [], _, _ => []
  | x :: xs, left, prev =>
    let p0 := prev.headD 0
    let p1 := prev.tail.headD 0
    let v := if c = x then p0 else 1 + min p0 (min left p1)
    v :: levRowAux c xs v prev.tail

/-- Row-by-row loop of SearchService.levenshteinDistance: each character of
str2 produces one matrix row, whose first entry is the row index. -/
def levRows (str1 : List Char) : List Char → Nat → List Nat → List Nat
  | [], _, prev => prev
  | c :: cs, i, prev => levRows str1 cs (i + 1) (i :: levRowAux c str1 i prev)

/-- SearchService.levenshteinDistance: dynamic-programming edit distance; the
answer is matrix[str2.length][str1.length], the last entry of the last row. -/
def levenshteinDistance (str1 str2 : List Char) : Nat :=
  (levRows str1 str2 1 (List.range (str1.length + 1))).getLastD 0

/-- SearchService.calculateStringSimilarity (AuthService.ts lines 650-660):
picks the longer string, returns 1 for two empty strings, otherwise
(longer.length - editDistance) / longer.length. -/
def calculateStringSimilarity (str1 str2 : List Char) : ℚ :=
  let longer := if str2.length < str1.length then str1 else str2
  let shorter := if str2.length < str1.length then str2 else str1
  if longer.length = 0 then 1
  else ((longer.length : ℚ) - (levenshteinDistance longer shorter : ℚ)) / (longer.length : ℚ)

/-- SearchService.calculateRelevanceScore (AuthService.ts lines 617-645):
exact-match / substring / starts-with chain on the lowercased title, a
description bonus, a similarity bonus, and a final cap at 100. -/
def calculateRelevanceScore (query title : List Char) (description : Option (List Char)) : ℚ :=
  let queryLower := toLowerStr query
  let titleLower := toLowerStr title
  let descLower := match description with
    | some d => toLowerStr d
    | none => []
  let base : ℚ :=
    if titleLower = queryLower then 100
    else if containsSub titleLower queryLower then 80
    else if queryLower.isPrefixOf titleLower then 60
    else 0
  let withDesc := base + (if containsSub descLower queryLower then 20 else 0)
  let total := withDesc + calculateStringSimilarity queryLower titleLower * 40
  minQ 100 total

/-- Normalized similarity exactly as the spec words it:
1 - levenshteinDistance / max(len1, len2). -/
def normalizedStringSimilaritySpec (s1 s2 : List Char) : ℚ :=
  1 - (levenshteinDistance s1 s2 : ℚ) / ((max s1.length s2.length : Nat) : ℚ)

/-- Relevance score exactly as the spec sentence words it (claim C1): the
match chain, the description bonus and 40 x similarity added as a plain sum,
with no cap. -/
def claimRelevanceScore (query title : List Char) (description : Option (List Char)) : ℚ :=
  let queryLower := toLowerStr query
  let titleLower := toLowerStr title
  let descLower := match description with
    | some d => toLowerStr d
    | none => []
  (if titleLower = queryLower then (100 : ℚ)
    else if containsSub titleLower queryLower then 80
    else if queryLower.isPrefixOf titleLower then 60
    else 0)
  + (if containsSub descLower queryLower then 20 else 0)
  + 40 * normalizedStringSimilaritySpec queryLower titleLower

/-- A string that starts with the needle also contains it (offset 0), so the
starts-with branch of calculateRelevanceScore can never be reached. -/
theorem containsSub_of_isPrefixOf (hay needle : List Char)
    (h : needle.isPrefixOf hay = true) : containsSub hay needle = true := by
  refine List.any_eq_true.mpr ⟨0, ?_, ?_⟩
  · exact List.mem_range.mpr (Nat.succ_pos _)
  · simpa using h

/-- Claim C1 (counterexample): the spec formula is an uncapped plain sum, but
the code caps the score at 100.  At query "ab", title "abc", no description,
the code returns 100 while the spec formula yields 80 + 40 x (2/3) = 320/3. -/
theorem c1_relevance_counterexample :
    calculateRelevanceScore (['a','b']) (['a','b','c']) none = 100 ∧
    claimRelevanceScore (['a','b']) (['a','b','c']) none = 320 / 3 := by
  have hlev1 : levenshteinDistance (['a','b','c']) (['a','b']) = 1 := by decide
  have hlev2 : levenshteinDistance (['a','b']) (['a','b','c']) = 1 := by decide
  have h1 : toLowerStr (['a','b','c']) = ['a','b','c'] := by decide
  have h2 : toLowerStr (['a','b']) = ['a','b'] := by decide
  have h3 : containsSub (['a','b','c']) (['a','b']) = true := by decide
  have h4 : containsSub ([] : List Char) (['a','b']) = false := by decide
  have h5 : (['a','b','c'] : List Char) ≠ ['a','b'] := by decide
  constructor
  · simp only [calculateRelevanceScore, calculateStringSimilarity, h1, h2, h3, h4, h5,
      hlev1, if_false, if_true]
    norm_num [minQ, hlev1]
  · simp only [claimRelevanceScore, normalizedStringSimilaritySpec, h1, h2, h3, h4, h5,
      hlev2, if_false, if_true]
    norm_num [hlev2]

/-- Claim C1 (amended): the relevance score is min(100, base + descriptionBonus
+ 40 x similarity) where base is 100 on an exact lowercased title match and
otherwise 80 when the title contains the query; the 60-point starts-with
branch is unreachable because a title starting with the query also contains
it; and the similarity equals 1 - levenshtein(longer, shorter)/max(len1,len2). -/
theorem c1_relevance_amended :
    (∀ (query title : List Char) (description : Option (List Char)),
      calculateRelevanceScore query title description =
        minQ 100
          ((if toLowerStr title = toLowerStr query then (100 : ℚ)
            else if containsSub (toLowerStr title) (toLowerStr query) then 80 else 0)
           + (if containsSub (match description with
                | some d => toLowerStr d
                | none => []) (toLowerStr query) then 20 else 0)
           + calculateStringSimilarity (toLowerStr query) (toLowerStr title) * 40))
    ∧ (∀ s1 s2 : List Char,
      calculateStringSimilarity s1 s2 =
        1 - (levenshteinDistance (if s2.length < s1.length then s1 else s2)
              (if s2.length < s1.length then s2 else s1) : ℚ)
            / ((max s1.length s2.length : Nat) : ℚ)) := by
  constructor
  · intro query title description
    simp only [calculateRelevanceScore]
    by_cases h1 : toLowerStr title = toLowerStr query
    · simp [h1]
    · by_cases h2 : containsSub (toLowerStr title) (toLowerStr query) = true
      · simp [h1, h2]
      · have h3 : (toLowerStr query).isPrefixOf (toLowerStr title) = false := by
          cases hp : (toLowerStr query).isPrefixOf (toLowerStr title) with
          | false => rfl
          | true => exact absurd (containsSub_of_isPrefixOf _ _ hp) h2
        simp [h1, h2, h3]
  · intro s1 s2
    simp only [calculateStringSimilarity]
    by_cases hc : s2.length < s1.length
    · simp only [if_pos hc]
      have h0 : s1.length ≠ 0 := by omega
      rw [if_neg h0]
      have hmax : max s1.length s2.length = s1.length := Nat.max_eq_left (le_of_lt hc)
      rw [hmax]
      have hQ : (s1.length : ℚ) ≠ 0 := Nat.cast_ne_zero.mpr h0
      field_simp
    · simp only [if_neg hc]
      by_cases h0 : s2.length = 0
      · rw [if_pos h0]
        have hs2 : s2 = [] := List.length_eq_zero.mp h0
        have hs1 : s1 = [] := List.length_eq_zero.mp (by omega)
        subst hs1 hs2
        norm_num [levenshteinDistance, levRows]
      · rw [if_neg h0]
        have hmax : max s1.length s2.length = s2.length := Nat.max_eq_right (by omega)
        rw [hmax]
        have hQ : (s2.length : ℚ) ≠ 0 := Nat.cast_ne_zero.mpr h0
        field_simp

/-- Drama document, with the fields the recommendation, ranking and category
services read (types/drama.ts). -/
structure Drama where
  category : String
  tags : List String
  cast : List String
  rating : ℚ
  viewCount : Nat
  commentCount : Nat
  favoriteCount : Nat
deriving DecidableEq, Repr

/-- Entry of UserPreference.categories (models/UserPreference.ts). -/
structure CategoryWeight where
  category : String
  weight : ℚ
deriving DecidableEq, Repr

/-- Entry of UserPreference.tags (models/UserPreference.ts). -/
structure TagWeight where
  tag : String
  weight : ℚ
deriving DecidableEq, Repr

/-- Entry of UserPreference.actors (models/UserPreference.ts). -/
structure ActorWeight where
  actor : String
  weight : ℚ
deriving DecidableEq, Repr

/-- The ratingRange sub-document of UserPreference. -/
structure RatingRange where
  min : ℚ
  max : ℚ
  preferred : ℚ
deriving DecidableEq, Repr

/-- Stored user-preference record (models/UserPreference.ts). -/
structure UserPreferenceData where
  categories : List CategoryWeight
  tags : List TagWeight
  actors : List ActorWeight
  ratingRange : RatingRange
deriving DecidableEq, Repr

/-- RecommendationService.calculatePersonalizedScore
(RecommendationService.ts lines 347-381): category, tag and actor matches are
looked up with Array.find, the rating bonus is max(0, 25 - 5 x diff), and the
sum is capped at 100. -/
def calculatePersonalizedScore (drama : Drama) (userPreference : UserPreferenceData) : ℚ :=
  let s1 : ℚ := match userPreference.categories.find? (fun c => c.category == drama.category) with
    | some m => 0 + m.weight * 40
    | none => 0
  let s2 := drama.tags.foldl (fun score tag =>
    match userPreference.tags.find? (fun t => t.tag == tag) with
    | some m => score + m.weight * 20
    | none => score) s1
  let s3 := drama.cast.foldl (fun score actor =>
    match userPreference.actors.find? (fun a => a.actor == actor) with
    | some m => score + m.weight * 15
    | none => score) s2
  let ratingDiff := |drama.rating - userPreference.ratingRange.preferred|
  minQ 100 (s3 + maxQ 0 (25 - ratingDiff * 5))

/-- Weight stored for a category name, 0 when absent. -/
def lookupCategoryWeight (p : UserPreferenceData) (name : String) : ℚ :=
  match p.categories.find? (fun c => c.category == name) with
  | some m => m.weight
  | none => 0

/-- Weight stored for a tag name, 0 when absent. -/
def lookupTagWeight (p : UserPreferenceData) (name : String) : ℚ :=
  match p.tags.find? (fun t => t.tag == name) with
  | some m => m.weight
  | none => 0

/-- Weight stored for an actor name, 0 when absent. -/
def lookupActorWeight (p : UserPreferenceData) (name : String) : ℚ :=
  match p.actors.find? (fun a => a.actor == name) with
  | some m => m.weight
  | none => 0

/-- A left fold that conditionally adds a bonus per element is the initial
value plus the sum of the bonuses. -/
theorem foldl_add_map_sum (f : α → ℚ) (l : List α) (init : ℚ) :
    l.foldl (fun acc x => acc + f x) init = init + (l.map f).sum := by
  induction l generalizing init with
  | nil => simp
  | cons x xs ih => simp only [List.foldl_cons, List.map_cons, List.sum_cons, ih]; ring

/-- Claim C3 (confirmed): the personalized recommendation score is
min(100, categoryWeight x 40 + sum of tagWeight x 20 + sum of actorWeight x 15
+ max(0, 25 - 5 x |rating - preferredRating|)), where each weight is the one
stored for that exact name and 0 when absent. -/
theorem c3_personalized_score (drama : Drama) (p : UserPreferenceData) :
    calculatePersonalizedScore drama p =
      minQ 100
        (lookupCategoryWeight p drama.category * 40
          + (drama.tags.map (fun t => lookupTagWeight p t * 20)).sum
          + (drama.cast.map (fun a => lookupActorWeight p a * 15)).sum
          + maxQ 0 (25 - 5 * |drama.rating - p.ratingRange.preferred|)) := by
  simp only [calculatePersonalizedScore]
  have hcat : (match p.categories.find? (fun c => c.category == drama.category) with
      | some m => (0 : ℚ) + m.weight * 40
      | none => 0) = lookupCategoryWeight p drama.category * 40 := by
    rw [lookupCategoryWeight]
    cases p.categories.find? (fun c => c.category == drama.category) with
    | none => simp
    | some m => simp
  have htag : (fun (score : ℚ) (tag : String) =>
      match p.tags.find? (fun t => t.tag == tag) with
      | some m => score + m.weight * 20
      | none => score) = fun score tag => score + lookupTagWeight p tag * 20 := by
    funext score tag
    rw [lookupTagWeight]
    cases p.tags.find? (fun t => t.tag == tag) with
    | none => simp
    | some m => simp
  have hactor : (fun (score : ℚ) (actor : String) =>
      match p.actors.find? (fun a => a.actor == actor) with
      | some m => score + m.weight * 15
      | none => score) = fun score actor => score + lookupActorWeight p actor * 15 := by
    funext score actor
    rw [lookupActorWeight]
    cases p.actors.find? (fun a => a.actor == actor) with
    | none => simp
    | some m => simp
  rw [hcat, htag, hactor, foldl_add_map_sum, foldl_add_map_sum]
  congr 1
  ring_nf

/-- RecommendationService.calculateSimilarityScore
(RecommendationService.ts lines 386-411): 30 for the same category, 10 per
common tag, 15 per common cast member, max(0, 20 - 4 x rating difference),
capped at 100. -/
def calculateSimilarityScore (baseDrama targetDrama : Drama) : ℚ :=
  let s1 : ℚ := if baseDrama.category = targetDrama.category then 0 + 30 else 0
  let commonTags := baseDrama.tags.filter (fun tag => targetDrama.tags.contains tag)
  let s2 := s1 + (commonTags.length : ℚ) * 10
  let commonCast := baseDrama.cast.filter (fun actor => targetDrama.cast.contains actor)
  let s3 := s2 + (commonCast.length : ℚ) * 15
  let ratingDiff := |baseDrama.rating - targetDrama.rating|
  minQ 100 (s3 + maxQ 0 (20 - ratingDiff * 4))

theorem minQ_eq_left {a b : ℚ} (h : a ≤ b) : minQ a b = a := if_pos h

theorem minQ_eq_right {a b : ℚ} (h : b ≤ a) : minQ a b = b := by
  rw [minQ]
  split_ifs with h1
  · exact le_antisymm h1 h
  · rfl

theorem maxQ_eq_left {a b : ℚ} (h : b ≤ a) : maxQ a b = a := by
  rw [maxQ]
  split_ifs with h1
  · exact le_antisymm h h1
  · rfl

theorem maxQ_eq_right {a b : ℚ} (h : a ≤ b) : maxQ a b = b := if_pos h

/-- Claim C2 (counterexample): a candidate with the same category as the seed,
full (here empty) tag overlap and full (here empty) cast overlap and the same
rating scores 30 + 20 = 50, not the claimed capped maximum of 100. -/
theorem c2_similarity_counterexample :
    calculateSimilarityScore (Drama.mk "c" [] [] 8 0 0 0) (Drama.mk "c" [] [] 8 0 0 0) = 50 ∧
    (50 : ℚ) ≠ 100 := by
  constructor
  · norm_num [calculateSimilarityScore, minQ, maxQ]
  · norm_num

/-- Claim C2 (amended): a candidate with the same category, full tag overlap
and full cast overlap scores the capped maximum 100 exactly when the uncapped
sum 30 + 10 x tags + 15 x cast + max(0, 20 - 4 x rating difference) reaches
100; and a candidate sharing no category, no tags, no cast, with rating at
least 5 away, scores 0. -/
theorem c2_similarity_amended (b t b2 t2 : Drama)
    (h1 : b.category = t.category)
    (h2 : ∀ x ∈ b.tags, x ∈ t.tags)
    (h3 : ∀ x ∈ b.cast, x ∈ t.cast)
    (h4 : 100 ≤ 0 + 30 + (b.tags.length : ℚ) * 10 + (b.cast.length : ℚ) * 15
      + maxQ 0 (20 - |b.rating - t.rating| * 4))
    (h5 : b2.category ≠ t2.category)
    (h6 : ∀ x ∈ b2.tags, x ∉ t2.tags)
    (h7 : ∀ x ∈ b2.cast, x ∉ t2.cast)
    (h8 : 5 ≤ |b2.rating - t2.rating|) :
    calculateSimilarityScore b t = 100 ∧ calculateSimilarityScore b2 t2 = 0 := by
  constructor
  · simp only [calculateSimilarityScore, if_pos h1]
    have htags : b.tags.filter (fun tag => t.tags.contains tag) = b.tags :=
      List.filter_eq_self.mpr (fun x hx => by
        simpa using h2 x hx)
    have hcast : b.cast.filter (fun actor => t.cast.contains actor) = b.cast :=
      List.filter_eq_self.mpr (fun x hx => by
        simpa using h3 x hx)
    rw [htags, hcast, minQ_eq_left]
    exact h4
  · simp only [calculateSimilarityScore, if_neg h5]
    have htags : b2.tags.filter (fun tag => t2.tags.contains tag) = [] :=
      List.filter_eq_nil_iff.mpr (fun x hx => by
        simpa using h6 x hx)
    have hcast : b2.cast.filter (fun actor => t2.cast.contains actor) = [] :=
      List.filter_eq_nil_iff.mpr (fun x hx => by
        simpa using h7 x hx)
    rw [htags, hcast]
    have hneg : 20 - |b2.rating - t2.rating| * 4 ≤ 0 := by nlinarith
    rw [maxQ_eq_left hneg, minQ_eq_right (by norm_num)]
    norm_num

/-- Witness for claim C2's amended theorem: a seed with four tags and one cast
member fully shared and equal ratings reaches the cap, and a fully unrelated
candidate five rating points away scores 0. -/
theorem c2_similarity_amended_witness :
    calculateSimilarityScore (Drama.mk "c" ["t1","t2","t3","t4"] ["a1"] 8 0 0 0)
        (Drama.mk "c" ["t1","t2","t3","t4"] ["a1"] 8 0 0 0) = 100 ∧
    calculateSimilarityScore (Drama.mk "x" ["p"] ["q"] 0 0 0 0)
        (Drama.mk "y" ["r"] ["s"] 5 0 0 0) = 0 :=
  c2_similarity_amended _ _ _ _
    rfl
    (by decide)
    (by decide)
    (by norm_num [maxQ])
    (by decide)
    (by decide)
    (by decide)
    (by norm_num)

/-- Ranking windows (RankingType in types/search.ts). -/
inductive RankingType where
  | daily
  | weekly
  | monthly
  | allTime
deriving DecidableEq, Repr

/-- RankingService.calculateTimeDecay (RecommendationService.ts lines
739-753): linear decay floored at 0.5 within 48 hours for the daily window,
floored at 0.7 within 7 x 24 x 2 hours for the weekly window, 1 otherwise. -/
def calculateTimeDecay (hoursDiff : ℚ) (type : RankingType) : ℚ :=
  match type with
  | .daily => maxQ (1/2) (1 - hoursDiff / 48)
  | .weekly => maxQ (7/10) (1 - hoursDiff / (7 * 24 * 2))
  | _ => 1

/-- Decay application step of RankingService.calculateRankingScore
(RecommendationService.ts lines 717-721): the base score is multiplied by the
decay factor only for the daily and weekly windows. -/
def applyTimeDecay (score : ℚ) (type : RankingType) (hoursDiff : ℚ) : ℚ :=
  if type = .daily ∨ type = .weekly then score * calculateTimeDecay hoursDiff type else score

/-- Claim C5 (confirmed): daily scores are multiplied by
max(0.5, 1 - hours/48), weekly scores by max(0.7, 1 - hours/336), and the
monthly and all-time windows are left undecayed. -/
theorem c5_time_decay (s hoursDiff : ℚ) :
    applyTimeDecay s .daily hoursDiff = s * maxQ (1/2) (1 - hoursDiff / 48)
    ∧ applyTimeDecay s .weekly hoursDiff = s * maxQ (7/10) (1 - hoursDiff / 336)
    ∧ applyTimeDecay s .monthly hoursDiff = s
    ∧ applyTimeDecay s .allTime hoursDiff = s := by
  refine ⟨?_, ?_, ?_, ?_⟩ <;> norm_num [applyTimeDecay, calculateTimeDecay]

/-- Metrics block of a ranking item (RankingService.calculateRanking). -/
structure RankingMetrics where
  viewCount : Nat
  rating : ℚ
  commentCount : Nat
  favoriteCount : Nat
deriving DecidableEq, Repr

/-- Item of a computed ranking list (RankingItem in types/search.ts). -/
structure RankingItem where
  rank : Nat
  drama : Drama
  score : ℚ
  change : Int
  metrics : RankingMetrics
deriving DecidableEq, Repr

/-- Metrics extracted from a drama document in calculateRanking. -/
def dramaMetrics (d : Drama) : RankingMetrics :=
  ⟨d.viewCount, d.rating, d.commentCount, d.favoriteCount⟩

/-- Final map of RankingService.calculateRanking: item at position index gets
rank index + 1 (and change 0 in this simplified implementation). -/
def assignRanks : Nat → List (Drama × ℚ) → List RankingItem
  | _, [] => []
  | i, p :: ps => ⟨i + 1, p.1, p.2, 0, dramaMetrics p.1⟩ :: assignRanks (i + 1) ps

/-- RankingService.calculateRanking (RecommendationService.ts lines 619-673):
score every candidate, sort by descending score, keep the first limit items
and number them from 1.  The numeric scoring function (calculateRankingScore,
which combines log10-weighted counters) is passed as a parameter. -/
def calculateRanking (score : Drama → ℚ) (dramas : List Drama) (limit : Nat) :
    List RankingItem :=
  let scoredDramas := dramas.map (fun d => (d, score d))
  let sorted := scoredDramas.mergeSort (fun a b => decide (b.2 ≤ a.2))
  assignRanks 0 (sorted.take limit)

/-- Ranks assigned by assignRanks starting at index i are i+1, i+2, ... -/
theorem assignRanks_map_rank (l : List (Drama × ℚ)) (i : Nat) :
    (assignRanks i l).map RankingItem.rank = List.range' (i + 1) l.length := by
  induction l generalizing i with
  | nil => simp [assignRanks]
  | cons p ps ih => simp [assignRanks, ih, List.range']

/-- Scores are carried through assignRanks unchanged. -/
theorem assignRanks_map_score (l : List (Drama × ℚ)) (i : Nat) :
    (assignRanks i l).map RankingItem.score = l.map Prod.snd := by
  induction l generalizing i with
  | nil => simp [assignRanks]
  | cons p ps ih => simp [assignRanks, ih]

/-- Claim C4 (confirmed): for every scoring function, candidate list and
limit, calculateRanking returns a list whose scores are non-increasing and
whose rank fields are exactly 1, 2, ..., min(limit, number of candidates). -/
theorem c4_ranking_sorted_and_ranked (score : Drama → ℚ) (dramas : List Drama) (limit : Nat) :
    ((calculateRanking score dramas limit).map RankingItem.score).Pairwise (· ≥ ·)
    ∧ (calculateRanking score dramas limit).map RankingItem.rank
        = List.range' 1 (min limit dramas.length) := by
  constructor
  · simp only [calculateRanking]
    rw [assignRanks_map_score, List.pairwise_map]
    have hs : ((dramas.map (fun d => (d, score d))).mergeSort
        (fun a b => decide (b.2 ≤ a.2))).Pairwise (fun a b => decide (b.2 ≤ a.2) = true) := by
      apply List.sorted_mergeSort
      · intro a b c hab hbc
        have h1 : b.2 ≤ a.2 := of_decide_eq_true hab
        have h2 : c.2 ≤ b.2 := of_decide_eq_true hbc
        exact decide_eq_true (le_trans h2 h1)
      · intro a b
        rcases le_total b.2 a.2 with h | h
        · simp [decide_eq_true h]
        · simp [decide_eq_true h]
    exact ((hs.imp fun h => of_decide_eq_true h).sublist (List.take_sublist _ _))
  · simp only [calculateRanking]
    rw [assignRanks_map_rank]
    simp [List.length_take]

/-- Replace the first element satisfying p, as the findIndex-and-assign
pattern of the preference update methods does. -/
def updateFirst (p : α → Bool) (f : α → α) : List α → List α
  | [] => []
  | x :: xs => if p x then f x :: xs else x :: updateFirst p f xs

/-- Shared keep-the-heaviest truncation of the preference update methods:
when the list exceeds n entries it is sorted by descending weight and cut to
the first n. -/
def capByWeight (w : α → ℚ) (n : Nat) (l : List α) : List α :=
  if n < l.length then (l.mergeSort (fun a b => decide (w b ≤ w a))).take n else l

/-- UserPreferenceSchema.methods.updateCategoryPreference
(models/UserPreference.ts lines 111-127): clamp the weight into [0,1], update
the existing entry or append a new one, keep at most the 10 heaviest. -/
def updateCategoryPreference (categories : List CategoryWeight) (category : String)
    (weight : ℚ) : List CategoryWeight :=
  let w := minQ 1 (maxQ 0 weight)
  let updated :=
    if categories.any (fun c => c.category == category) then
      updateFirst (fun c => c.category == category) (fun c => { c with weight := w }) categories
    else
      categories ++ [⟨category, w⟩]
  capByWeight CategoryWeight.weight 10 updated

/-- UserPreferenceSchema.methods.updateTagPreference
(models/UserPreference.ts lines 130-146): same as the category update with a
cap of 20 entries. -/
def updateTagPreference (tags : List TagWeight) (tag : String) (weight : ℚ) : List TagWeight :=
  let w := minQ 1 (maxQ 0 weight)
  let updated :=
    if tags.any (fun t => t.tag == tag) then
      updateFirst (fun t => t.tag == tag) (fun t => { t with weight := w }) tags
    else
      tags ++ [⟨tag, w⟩]
  capByWeight TagWeight.weight 20 updated

/-- User actions that feed preference learning. -/
inductive PrefAction where
  | view
  | like
  | favorite
  | complete
deriving DecidableEq, Repr

/-- Action weights of updatePreferenceFromDrama (0.1 / 0.3 / 0.5 / 0.7). -/
def actionWeight : PrefAction → ℚ
  | .view => 1/10
  | .like => 3/10
  | .favorite => 1/2
  | .complete => 7/10

/-- Per-actor step of updatePreferenceFromDrama (models/UserPreference.ts
lines 210-226): an existing entry gains min(1, old + weight x 0.6), a new
entry starts at weight x 0.6; the 15-entry cap is applied only after the
whole cast loop. -/
def updateActorPreference (actors : List ActorWeight) (actor : String)
    (weight : ℚ) : List ActorWeight :=
  if actors.any (fun a => a.actor == actor) then
    updateFirst (fun a => a.actor == actor)
      (fun a => { a with weight := minQ 1 (a.weight + weight * (6/10)) }) actors
  else
    actors ++ [⟨actor, weight * (6/10)⟩]

/-- UserPreferenceSchema.statics.updatePreferenceFromDrama
(models/UserPreference.ts lines 185-234): category update when the drama has
a category, tag updates at weight x 0.8, actor updates at weight x 0.6 with a
final cap of 15. -/
def updatePreferenceFromDrama (preference : UserPreferenceData) (drama : Drama)
    (action : PrefAction) : UserPreferenceData :=
  let weight := actionWeight action
  let cats :=
    if drama.category ≠ "" then
      updateCategoryPreference preference.categories drama.category weight
    else preference.categories
  let tags := drama.tags.foldl
    (fun ts tag => updateTagPreference ts tag (weight * (8/10))) preference.tags
  let actors0 := drama.cast.foldl
    (fun as actor => updateActorPreference as actor weight) preference.actors
  { preference with
      categories := cats
      tags := tags
      actors := capByWeight ActorWeight.weight 15 actors0 }

/-- Invariant of one weighted preference list: weights in [0,1] and at most n
entries. -/
def weightListInv (w : α → ℚ) (n : Nat) (l : List α) : Prop :=
  (∀ x ∈ l, 0 ≤ w x ∧ w x ≤ 1) ∧ l.length ≤ n

/-- Invariant of a whole preference record: category, tag and actor lists have
weights in [0,1] and lengths at most 10, 20 and 15. -/
def prefInv (p : UserPreferenceData) : Prop :=
  weightListInv CategoryWeight.weight 10 p.categories
  ∧ weightListInv TagWeight.weight 20 p.tags
  ∧ weightListInv ActorWeight.weight 15 p.actors

theorem minQ_le_left (a b : ℚ) : minQ a b ≤ a := by
  rw [minQ]
  split_ifs with h
  · exact le_refl a
  · exact le_of_not_le h

theorem le_minQ {a b c : ℚ} (h1 : c ≤ a) (h2 : c ≤ b) : c ≤ minQ a b := by
  rw [minQ]
  split_ifs <;> assumption

theorem le_maxQ_left (a b : ℚ) : a ≤ maxQ a b := by
  rw [maxQ]
  split_ifs with h
  · exact h
  · exact le_refl a

/-- A clamped weight min(1, max(0, x)) always lies in [0,1]. -/
theorem clamped_weight_mem (x : ℚ) : 0 ≤ minQ 1 (maxQ 0 x) ∧ minQ 1 (maxQ 0 x) ≤ 1 :=
  ⟨le_minQ (by norm_num) (le_maxQ_left 0 x), minQ_le_left 1 (maxQ 0 x)⟩

theorem updateFirst_forall {P : α → Prop} {l : List α} {p : α → Bool} {f : α → α}
    (hl : ∀ y ∈ l, P y) (hf : ∀ y ∈ l, P (f y)) : ∀ y ∈ updateFirst p f l, P y := by
  induction l with
  | nil => intro y hy; simp [updateFirst] at hy
  | cons x xs ih =>
    intro y hy
    rw [updateFirst] at hy
    split_ifs at hy with hx
    · rcases List.mem_cons.mp hy with h | h
      · exact h ▸ hf x (List.mem_cons_self x xs)
      · exact hl y (List.mem_cons_of_mem x h)
    · rcases List.mem_cons.mp hy with h | h
      · exact h ▸ hl x (List.mem_cons_self x xs)
      · exact ih (fun z hz => hl z (List.mem_cons_of_mem x hz))
          (fun z hz => hf z (List.mem_cons_of_mem x hz)) y h

theorem capByWeight_forall {P : α → Prop} {l : List α} {w : α → ℚ} {n : Nat}
    (h : ∀ x ∈ l, P x) : ∀ x ∈ capByWeight w n l, P x := by
  intro x hx
  rw [capByWeight] at hx
  split_ifs at hx with hn
  · exact h x (List.mem_mergeSort.mp (List.take_subset _ _ hx))
  · exact h x hx

theorem capByWeight_length_le (w : α → ℚ) (n : Nat) (l : List α) :
    (capByWeight w n l).length ≤ n := by
  rw [capByWeight]
  split_ifs with hn
  · simp [List.length_take]
  · omega

theorem foldl_preserve {P : β → Prop} {step : β → α → β}
    (h : ∀ b a, P b → P (step b a)) :
    ∀ (l : List α) (b : β), P b → P (l.foldl step b) := by
  intro l
  induction l with
  | nil => intro b hb; simpa using hb
  | cons x xs ih => intro b hb; exact ih (step b x) (h b x hb)

/-- The category update keeps weights in [0,1] and at most 10 entries. -/
theorem updateCategoryPreference_inv {cats : List CategoryWeight} (category : String)
    (weight : ℚ) (h : ∀ c ∈ cats, 0 ≤ c.weight ∧ c.weight ≤ 1) :
    weightListInv CategoryWeight.weight 10 (updateCategoryPreference cats category weight) := by
  constructor
  · apply capByWeight_forall
    split_ifs with hex
    · exact updateFirst_forall h (fun y _ => clamped_weight_mem weight)
    · intro x hx
      rcases List.mem_append.mp hx with hx | hx
      · exact h x hx
      · simp only [List.mem_singleton] at hx
        exact hx ▸ clamped_weight_mem weight
  · exact capByWeight_length_le _ _ _

/-- The tag update keeps weights in [0,1] and at most 20 entries. -/
theorem updateTagPreference_inv {tags : List TagWeight} (tag : String)
    (weight : ℚ) (h : ∀ t ∈ tags, 0 ≤ t.weight ∧ t.weight ≤ 1) :
    weightListInv TagWeight.weight 20 (updateTagPreference tags tag weight) := by
  constructor
  · apply capByWeight_forall
    split_ifs with hex
    · exact updateFirst_forall h (fun y _ => clamped_weight_mem weight)
    · intro x hx
      rcases List.mem_append.mp hx with hx | hx
      · exact h x hx
      · simp only [List.mem_singleton] at hx
        exact hx ▸ clamped_weight_mem weight
  · exact capByWeight_length_le _ _ _

theorem actionWeight_pos (a : PrefAction) : 0 < actionWeight a := by
  cases a <;> norm_num [actionWeight]

theorem actionWeight_le (a : PrefAction) : actionWeight a ≤ 7/10 := by
  cases a <;> norm_num [actionWeight]

/-- One actor step keeps all weights in [0,1] when the action weight does. -/
theorem updateActorPreference_weights {actors : List ActorWeight} (actor : String)
    {weight : ℚ} (hw0 : 0 ≤ weight) (hw1 : weight ≤ 7/10)
    (h : ∀ a ∈ actors, 0 ≤ a.weight ∧ a.weight ≤ 1) :
    ∀ a ∈ updateActorPreference actors actor weight, 0 ≤ a.weight ∧ a.weight ≤ 1 := by
  rw [updateActorPreference]
  split_ifs with hex
  · refine updateFirst_forall h (fun y hy => ?_)
    have hy' := h y hy
    constructor
    · exact le_minQ (by norm_num) (by nlinarith [hy'.1])
    · exact minQ_le_left _ _
  · intro x hx
    rcases List.mem_append.mp hx with hx | hx
    · exact h x hx
    · simp only [List.mem_singleton] at hx
      subst hx
      constructor
      · nlinarith
      · nlinarith

/-- Claim C8 (confirmed): updateCategoryPreference, updateTagPreference and
the per-action updatePreferenceFromDrama all preserve the invariant that
stored weights lie in [0,1] and the category/tag/actor lists hold at most
10/20/15 entries, truncating by keeping the highest-weight entries. -/
theorem c8_preference_update_invariants
    (cats : List CategoryWeight) (tags : List TagWeight)
    (category tag : String) (wc wt : ℚ)
    (p : UserPreferenceData) (drama : Drama) (action : PrefAction)
    (h : (∀ c ∈ cats, 0 ≤ c.weight ∧ c.weight ≤ 1)
      ∧ (∀ t ∈ tags, 0 ≤ t.weight ∧ t.weight ≤ 1)
      ∧ prefInv p) :
    weightListInv CategoryWeight.weight 10 (updateCategoryPreference cats category wc)
    ∧ weightListInv TagWeight.weight 20 (updateTagPreference tags tag wt)
    ∧ prefInv (updatePreferenceFromDrama p drama action) := by
  obtain ⟨hc, ht, hpc, hpt, hpa⟩ := h
  refine ⟨updateCategoryPreference_inv category wc hc,
    updateTagPreference_inv tag wt ht, ?_, ?_, ?_⟩
  · show weightListInv CategoryWeight.weight 10
      (if drama.category ≠ "" then
        updateCategoryPreference p.categories drama.category (actionWeight action)
      else p.categories)
    split_ifs with hd
    · exact updateCategoryPreference_inv _ _ hpc.1
    · exact hpc
  · show weightListInv TagWeight.weight 20
      (drama.tags.foldl
        (fun ts tag => updateTagPreference ts tag (actionWeight action * (8/10))) p.tags)
    exact foldl_preserve (fun b a hb => updateTagPreference_inv a _ hb.1) _ _ hpt
  · show weightListInv ActorWeight.weight 15
      (capByWeight ActorWeight.weight 15
        (drama.cast.foldl
          (fun as actor => updateActorPreference as actor (actionWeight action)) p.actors))
    constructor
    · refine capByWeight_forall
        (@foldl_preserve (List ActorWeight) String
          (fun l => ∀ x ∈ l, 0 ≤ x.weight ∧ x.weight ≤ 1)
          (fun as actor => updateActorPreference as actor (actionWeight action))
          (fun b a hb => updateActorPreference_weights a
            (le_of_lt (actionWeight_pos action)) (actionWeight_le action) hb)
          drama.cast p.actors hpa.1)
    · exact capByWeight_length_le _ _ _

/-- Witness for claim C8's invariant theorem at a concrete preference record,
drama and like action. -/
theorem c8_preference_update_invariants_witness :
    weightListInv CategoryWeight.weight 10 (updateCategoryPreference [⟨"a", 1/2⟩] "b" (3/4))
    ∧ weightListInv TagWeight.weight 20 (updateTagPreference [⟨"x", 1/5⟩] "x" 2)
    ∧ prefInv (updatePreferenceFromDrama
        ⟨[⟨"a", 1/2⟩], [⟨"x", 1/5⟩], [⟨"m", 3/10⟩], ⟨0, 10, 8⟩⟩
        (Drama.mk "a" ["x","y"] ["m","n"] 9 0 0 0) .like) :=
  c8_preference_update_invariants [⟨"a", 1/2⟩] [⟨"x", 1/5⟩] "b" "x" (3/4) 2
    ⟨[⟨"a", 1/2⟩], [⟨"x", 1/5⟩], [⟨"m", 3/10⟩], ⟨0, 10, 8⟩⟩
    (Drama.mk "a" ["x","y"] ["m","n"] 9 0 0 0) .like
    ⟨by norm_num, by norm_num, by norm_num [prefInv, weightListInv]⟩

/-- Category document (models/Category.ts, src/unnamed/part_013). -/
structure Category where
  id : String
  name : String
  isActive : Bool
deriving DecidableEq, Repr

/-- The category collection and the drama collection, the two stores that
category deletion consults. -/
structure ContentStore where
  categories : List Category
  dramas : List Drama
deriving DecidableEq, Repr

/-- Outcome of CategoryService.deleteCategory: false for a missing id, an
error thrown by the pre-deleteOne hook while content references the category,
or a successful removal. -/
inductive DeleteResult where
  | notFound
  | blocked
  | deleted
deriving DecidableEq, Repr

/-- CategoryService.deleteCategory (CategoryService.ts lines 137-155) combined
with the CategorySchema pre-deleteOne hook (src/unnamed/part_013 lines
96-107): find the category, count dramas whose category field equals its
name, reject when the count is positive, otherwise delete the document. -/
def deleteCategory (store : ContentStore) (id : String) : ContentStore × DeleteResult :=
  match store.categories.find? (fun c => c.id == id) with
  | none => (store, .notFound)
  | some category =>
    let dramaCount := (store.dramas.filter (fun d => d.category == category.name)).length
    if 0 < dramaCount then (store, .blocked)
    else ({ store with categories := store.categories.filter (fun c => c.id != id) }, .deleted)

/-- Claim C6 (confirmed): deleting a category fails (and the store is left
unchanged) whenever some content item references its name, and succeeds,
removing it, exactly when no content item references it. -/
theorem c6_delete_category (store : ContentStore) (id : String) (c : Category)
    (hfind : store.categories.find? (fun x => x.id == id) = some c) :
    ((∃ d ∈ store.dramas, d.category = c.name) →
      deleteCategory store id = (store, .blocked))
    ∧ ((∀ d ∈ store.dramas, d.category ≠ c.name) →
      (deleteCategory store id).2 = .deleted
        ∧ ∀ x ∈ (deleteCategory store id).1.categories, x.id ≠ id) := by
  constructor
  · rintro ⟨d, hd, hdc⟩
    rw [deleteCategory, hfind]
    have hmem : d ∈ store.dramas.filter (fun x => x.category == c.name) :=
      List.mem_filter.mpr ⟨hd, by simp [hdc]⟩
    have hpos : 0 < (store.dramas.filter (fun x => x.category == c.name)).length :=
      List.length_pos.mpr (List.ne_nil_of_mem hmem)
    simp [hpos]
  · intro hnone
    have hfil : store.dramas.filter (fun x => x.category == c.name) = [] :=
      List.filter_eq_nil_iff.mpr (fun d hd => by simpa using hnone d hd)
    constructor
    · rw [deleteCategory, hfind]
      simp [hfil]
    · intro x hx
      rw [deleteCategory, hfind] at hx
      simp [hfil, List.mem_filter] at hx
      simpa using hx.2

/-- Witness for claim C6 at a concrete store: category 1 is referenced by a
drama and cannot be deleted; category 2 is unreferenced and is deleted. -/
theorem c6_delete_category_witness :
    deleteCategory
        (ContentStore.mk [Category.mk "1" "Action" true, Category.mk "2" "Comedy" true]
          [Drama.mk "Action" [] [] 8 0 0 0]) "1"
      = (ContentStore.mk [Category.mk "1" "Action" true, Category.mk "2" "Comedy" true]
          [Drama.mk "Action" [] [] 8 0 0 0], .blocked)
    ∧ (deleteCategory
        (ContentStore.mk [Category.mk "1" "Action" true, Category.mk "2" "Comedy" true]
          [Drama.mk "Action" [] [] 8 0 0 0]) "2").2 = .deleted :=
  ⟨(c6_delete_category _ "1" (Category.mk "1" "Action" true) (by decide)).1
      ⟨Drama.mk "Action" [] [] 8 0 0 0, by decide, by decide⟩,
    ((c6_delete_category _ "2" (Category.mk "2" "Comedy" true) (by decide)).2 (by decide)).1⟩

/-- Observable inputs of one login attempt: whether the email matches a user,
whether that user is active, and whether the password checks out. -/
structure LoginInput where
  userFound : Bool
  statusActive : Bool
  passwordValid : Bool
deriving DecidableEq, Repr

/-- Outcomes of AuthService.login. -/
inductive LoginOutcome where
  | locked
  | invalidCredentials
  | inactiveAccount
  | success
deriving DecidableEq, Repr

/-- AuthService.checkLoginAttempts (AuthService.ts lines 292-301): the stored
failed_login counter (none when the key is absent) locks the account out once
it reaches MAX_LOGIN_ATTEMPTS = 5. -/
def checkLoginAttempts (counter : Option Nat) : Bool :=
  match counter with
  | some attempts => decide (5 ≤ attempts)
  | none => false

/-- AuthService.recordFailedLogin (AuthService.ts lines 306-313): increment
the stored counter, starting at 1 when the key is absent. -/
def recordFailedLogin (counter : Option Nat) : Option Nat :=
  match counter with
  | some current => some (current + 1)
  | none => some 1

/-- AuthService.login (AuthService.ts lines 90-142) as a step on the
failed-login counter for one email: the lockout check runs first, a missing
user or wrong password records a failure, an inactive account errors without
recording, and a successful login clears the counter (redis del). -/
def login (counter : Option Nat) (input : LoginInput) : LoginOutcome × Option Nat :=
  if checkLoginAttempts counter then (.locked, counter)
  else if !input.userFound then (.invalidCredentials, recordFailedLogin counter)
  else if !input.statusActive then (.inactiveAccount, counter)
  else if !input.passwordValid then (.invalidCredentials, recordFailedLogin counter)
  else (.success, none)

/-- Counter state after a sequence of login attempts. -/
def loginRun (counter : Option Nat) (inputs : List LoginInput) : Option Nat :=
  inputs.foldl (fun c i => (login c i).2) counter

/-- Numeric value of the stored counter, 0 when the key is absent. -/
def countVal (counter : Option Nat) : Nat := counter.getD 0

/-- An attempt that records a login failure: unknown email, or an active
account with a wrong password. -/
def isCredFailure (i : LoginInput) : Bool :=
  !i.userFound || (i.statusActive && !i.passwordValid)

theorem checkLoginAttempts_eq_false {c : Option Nat} (h : countVal c < 5) :
    checkLoginAttempts c = false := by
  cases c with
  | none => rfl
  | some n =>
    simp only [checkLoginAttempts, decide_eq_false_iff_not]
    simp only [countVal, Option.getD_some] at h
    omega

theorem countVal_recordFailedLogin (c : Option Nat) :
    countVal (recordFailedLogin c) = countVal c + 1 := by
  cases c <;> simp [recordFailedLogin, countVal]

/-- A below-threshold credential failure increments the counter by one. -/
theorem login_fail_step {c : Option Nat} {i : LoginInput} (hc : countVal c < 5)
    (hi : isCredFailure i = true) : countVal ((login c i).2) = countVal c + 1 := by
  rw [login, if_neg (by simp [checkLoginAttempts_eq_false hc])]
  rcases hu : i.userFound with _ | _
  · simp [hu, countVal_recordFailedLogin]
  · simp only [isCredFailure, hu, Bool.not_true, Bool.false_or, Bool.and_eq_true,
      Bool.not_eq_true'] at hi
    simp [hu, hi.1, hi.2, countVal_recordFailedLogin]

/-- Below the threshold, consecutive credential failures accumulate exactly. -/
theorem loginRun_failures (inputs : List LoginInput)
    (hfail : ∀ i ∈ inputs, isCredFailure i = true) :
    ∀ c : Option Nat, countVal c + inputs.length ≤ 5 →
      countVal (loginRun c inputs) = countVal c + inputs.length := by
  induction inputs with
  | nil => intro c _; simp [loginRun]
  | cons i is ih =>
    intro c hlen
    simp only [List.length_cons] at hlen
    have hclt : countVal c < 5 := by omega
    have hstep : countVal ((login c i).2) = countVal c + 1 :=
      login_fail_step hclt (hfail i (List.mem_cons_self i is))
    have hrest : countVal (loginRun ((login c i).2) is)
        = countVal ((login c i).2) + is.length := by
      apply ih (fun j hj => hfail j (List.mem_cons_of_mem i hj))
      omega
    show countVal (loginRun c (i :: is)) = countVal c + (i :: is).length
    rw [loginRun, List.foldl_cons]
    have hgoal : countVal (loginRun ((login c i).2) is)
        = countVal c + (i :: is).length := by
      rw [hrest, hstep]
      simp only [List.length_cons]
      omega
    exact hgoal

/-- At or above the threshold every attempt is rejected as locked, whatever
its credentials, and the counter is unchanged. -/
theorem login_locked {c : Option Nat} (h : 5 ≤ countVal c) (i : LoginInput) :
    login c i = (.locked, c) := by
  cases c with
  | none => simp [countVal] at h
  | some n =>
    rw [login, if_pos]
    simp only [checkLoginAttempts, decide_eq_true_eq]
    simpa [countVal] using h

/-- Below the threshold no attempt is rejected as locked. -/
theorem login_not_locked {c : Option Nat} (h : countVal c < 5) (i : LoginInput) :
    (login c i).1 ≠ .locked := by
  rw [login, if_neg (by simp [checkLoginAttempts_eq_false h])]
  split_ifs <;> simp

/-- Claim C7 (confirmed): with the attempt-counter cache available, five
consecutive failed logins for an email make the sixth attempt fail with the
lockout error before its credentials matter; a successful login clears the
counter; and after fewer than five consecutive failures the next attempt is
never rejected as locked. -/
theorem c7_login_lockout (inputs : List LoginInput) (i6 : LoginInput)
    (shorter : List LoginInput) (c : Option Nat) (iSucc : LoginInput)
    (h : inputs.length = 5 ∧ (∀ i ∈ inputs, isCredFailure i = true)
      ∧ shorter.length < 5 ∧ (∀ i ∈ shorter, isCredFailure i = true)
      ∧ countVal c < 5
      ∧ iSucc.userFound = true ∧ iSucc.statusActive = true ∧ iSucc.passwordValid = true) :
    login (loginRun none inputs) i6 = (.locked, loginRun none inputs)
    ∧ login c iSucc = (.success, none)
    ∧ (login (loginRun none shorter) i6).1 ≠ .locked := by
  obtain ⟨hlen, hfail, hslen, hsfail, hc, hu, ha, hp⟩ := h
  refine ⟨?_, ?_, ?_⟩
  · have h5 : countVal (loginRun none inputs) = 5 := by
      have := loginRun_failures inputs hfail none (by simp [countVal, hlen])
      simpa [countVal, hlen] using this
    exact login_locked (le_of_eq h5.symm) i6
  · rw [login, if_neg (by simp [checkLoginAttempts_eq_false hc])]
    simp [hu, ha, hp]
  · have hlt : countVal (loginRun none shorter) < 5 := by
      have := loginRun_failures shorter hsfail none (by simp [countVal]; omega)
      simp [countVal] at this ⊢
      omega
    exact login_not_locked hlt i6

/-- Witness for claim C7: five wrong-password attempts lock the account for a
sixth attempt even with valid credentials, a success from two failures clears
the counter, and three failures do not lock the next attempt. -/
theorem c7_login_lockout_witness :
    login (loginRun none (List.replicate 5 (LoginInput.mk true true false)))
        (LoginInput.mk true true true)
      = (.locked, loginRun none (List.replicate 5 (LoginInput.mk true true false)))
    ∧ login (some 2) (LoginInput.mk true true true) = (.success, none)
    ∧ (login (loginRun none (List.replicate 3 (LoginInput.mk true true false)))
        (LoginInput.mk true true true)).1 ≠ .locked :=
  c7_login_lockout (List.replicate 5 (LoginInput.mk true true false))
    (LoginInput.mk true true true)
    (List.replicate 3 (LoginInput.mk true true false))
    (some 2) (LoginInput.mk true true true)
    ⟨by decide, by decide, by decide, by decide, by decide, rfl, rfl, rfl⟩

/-- Account status (UserStatus in types/user.ts). -/
inductive UserStatus where
  | active
  | inactive
  | banned
  | pending
deriving DecidableEq, Repr

/-- User document as read by token verification. -/
structure AuthUser where
  userId : String
  status : UserStatus
deriving DecidableEq, Repr

/-- Decoded JWT payload (JWTPayload in types/user.ts). -/
structure JWTPayload where
  userId : String

/-- External dependencies of AuthService.verifyAccessToken: the redis client
(availability flag and the set of present keys), jwt.verify modelled as a
partial decoding function (none when verification throws), and the user
collection. -/
structure AuthEnv where
  redisReady : Bool
  redisKeys : List String
  jwtVerify : String → Option JWTPayload
  users : String → Option AuthUser

/-- Key prepended by TOKEN_BLACKLIST_PREFIX. -/
def tokenBlacklistKey (token : String) : String := "blacklist:token:" ++ token

/-- AuthService.verifyAccessToken (AuthService.ts lines 237-264): null for a
blacklisted token (when redis is up), null when jwt.verify throws, null for a
missing or non-active user, otherwise the user; the surrounding try/catch
turns every failure into null instead of an exception. -/
def verifyAccessToken (env : AuthEnv) (token : String) : Option AuthUser :=
  if env.redisReady && env.redisKeys.contains (tokenBlacklistKey token) then none
  else
    match env.jwtVerify token with
    | none => none
    | some decoded =>
      match env.users decoded.userId with
      | none => none
      | some user => if user.status ≠ .active then none else some user

/-- Claim C10 (confirmed): verifyAccessToken always returns either an active
user or null, and returns null whenever the token is blacklisted (with redis
up), jwt verification fails, the user is missing, or the user is not active. -/
theorem c10_verify_access_token (env : AuthEnv) (token : String) :
    (verifyAccessToken env token = none
      ∨ ∃ u, verifyAccessToken env token = some u ∧ u.status = .active)
    ∧ (env.redisReady = true →
        env.redisKeys.contains (tokenBlacklistKey token) = true →
        verifyAccessToken env token = none)
    ∧ (env.jwtVerify token = none → verifyAccessToken env token = none)
    ∧ (∀ p, env.jwtVerify token = some p → env.users p.userId = none →
        verifyAccessToken env token = none)
    ∧ (∀ p u, env.jwtVerify token = some p → env.users p.userId = some u →
        u.status ≠ .active → verifyAccessToken env token = none) := by
  refine ⟨?_, ?_, ?_, ?_, ?_⟩
  · rw [verifyAccessToken]
    split_ifs with hb
    · exact Or.inl rfl
    · cases hj : env.jwtVerify token with
      | none => exact Or.inl rfl
      | some p =>
        cases hu : env.users p.userId with
        | none => exact Or.inl (by simp [hu])
        | some u =>
          by_cases hs : u.status = .active
          · exact Or.inr ⟨u, by simp [hu, hs], hs⟩
          · exact Or.inl (by simp [hu, hs])
  · intro hr hbl
    rw [verifyAccessToken, if_pos (by rw [hr, hbl]; rfl)]
  · intro hj
    rw [verifyAccessToken]
    split_ifs with hb
    · rfl
    · simp [hj]
  · intro p hj hu
    rw [verifyAccessToken]
    split_ifs with hb
    · rfl
    · simp [hj, hu]
  · intro p u hj hu hs
    rw [verifyAccessToken]
    split_ifs with hb
    · rfl
    · simp [hj, hu, hs]

/-- A small concrete environment for exercising verifyAccessToken: one good
token for an active user, one banned user, and one blacklisted token. -/
def demoAuthEnv : AuthEnv where
  redisReady := true
  redisKeys := [tokenBlacklistKey "revoked"]
  jwtVerify := fun t =>
    if t = "good" then some ⟨"u1"⟩
    else if t = "revoked" then some ⟨"u1"⟩
    else if t = "banned-user" then some ⟨"u2"⟩
    else none
  users := fun i =>
    if i = "u1" then some ⟨"u1", .active⟩
    else if i = "u2" then some ⟨"u2", .banned⟩
    else none

/-- Witness for claim C10: a blacklisted token yields null in the concrete
environment. -/
theorem c10_verify_access_token_witness : verifyAccessToken demoAuthEnv "revoked" = none :=
  (c10_verify_access_token demoAuthEnv "revoked").2.1 rfl (by decide)

/-- Opening brace character of the JSON serializer model. -/
def lbrace : Char := Char.ofNat 123

/-- Closing brace character of the JSON serializer model. -/
def rbrace : Char := Char.ofNat 125

/-- JSON string literal.  The model performs no escaping; every concrete
input below contains only characters JSON.stringify copies verbatim. -/
def jsonQuote (s : List Char) : List Char := '"' :: (s ++ ['"'])

/-- One key:value member of a serialized JSON object. -/
def jsonField (name value : List Char) : List Char := jsonQuote name ++ ':' :: value

/-- JSON booleans. -/
def jsonBoolChars : Bool → List Char
  | true => ['t','r','u','e']
  | false => ['f','a','l','s','e']

/-- JSON numeral for a natural number. -/
def jsonNatChars (n : Nat) : List Char := (Nat.repr n).toList

/-- JSON array of string literals. -/
def jsonStringArray (l : List (List Char)) : List Char :=
  '[' :: (List.intercalate [','] (l.map jsonQuote) ++ [']'])

/-- Members contributed by an optional field: JSON.stringify drops keys whose
value is undefined. -/
def optField (name : List Char) : Option (List Char) → List (List Char)
  | some v => [jsonField name v]
  | none => []

/-- RecommendationRequest (types/search.ts lines 142-149), with its type tag
kept as the serialized enum string. -/
structure RecommendationRequest where
  userId : Option (List Char)
  dramaId : Option (List Char)
  type : List Char
  limit : Option Nat
  excludeWatched : Option Bool
  categories : Option (List (List Char))
deriving DecidableEq, Repr

/-- JSON.stringify of the object literal built inside
RecommendationService.buildCacheKey, with keys in insertion order and
undefined members dropped. -/
def recommendationRequestJson (r : RecommendationRequest) : List Char :=
  lbrace :: (List.intercalate [',']
    (optField ("userId".toList) (r.userId.map jsonQuote)
     ++ optField ("dramaId".toList) (r.dramaId.map jsonQuote)
     ++ [jsonField ("type".toList) (jsonQuote r.type)]
     ++ optField ("limit".toList) (r.limit.map jsonNatChars)
     ++ optField ("excludeWatched".toList) (r.excludeWatched.map jsonBoolChars)
     ++ optField ("categories".toList) (r.categories.map jsonStringArray))
  ++ [rbrace])

/-- RecommendationService.buildCacheKey (RecommendationService.ts lines
482-488): prefix plus serialized request, truncated to 250 characters. -/
def buildRecommendationCacheKey (request : RecommendationRequest) : List Char :=
  ("recommendation:".toList ++ recommendationRequestJson request).take 250

/-- Search filters (types/search.ts lines 30-46).  Only the optional members
the claims exercise are carried; every omitted member is likewise optional
and contributes nothing to the serialization when absent. -/
structure SearchFilters where
  category : Option (List Char)
  tags : Option (List (List Char))
deriving DecidableEq, Repr

/-- JSON.stringify of a filters object. -/
def searchFiltersJson (f : SearchFilters) : List Char :=
  lbrace :: (List.intercalate [',']
    (optField ("category".toList) (f.category.map jsonQuote)
     ++ optField ("tags".toList) (f.tags.map jsonStringArray))
  ++ [rbrace])

/-- SearchRequest (types/search.ts lines 49-53). -/
structure SearchRequest where
  query : List Char
  filters : Option SearchFilters
deriving DecidableEq, Repr

/-- SearchService.buildCacheKey (AuthService.ts lines 855-859): prefix plus
JSON.stringify of query and filters (defaulting to the empty object),
truncated to 250 characters. -/
def buildSearchCacheKey (request : SearchRequest) : List Char :=
  ("search:result:".toList
    ++ lbrace :: (jsonField ("query".toList) (jsonQuote request.query)
      ++ ',' :: jsonField ("filters".toList)
          (searchFiltersJson (request.filters.getD ⟨none, none⟩))
      ++ [rbrace])).take 250

/-- Cache fast path of RecommendationService.getRecommendations
(RecommendationService.ts lines 34-45): when redis is up and holds the built
key, the cached result is returned without recomputation. -/
def getRecommendationsCached (redisReady : Bool) (cache : List Char → Option α)
    (compute : RecommendationRequest → α) (request : RecommendationRequest) : α :=
  if redisReady then
    match cache (buildRecommendationCacheKey request) with
    | some cached => cached
    | none => compute request
  else compute request

/-- A 300-character category name, long enough to push the end of the
serialized request past position 250. -/
def longName : List Char := List.replicate 300 'x'

/-- First colliding recommendation request: one long category ending in A. -/
def recReqA : RecommendationRequest :=
  ⟨some ("u1".toList), none, "category_based".toList, some 10, some true,
    some [longName ++ ['A']]⟩

/-- Second colliding recommendation request: same but ending in B. -/
def recReqB : RecommendationRequest :=
  ⟨some ("u1".toList), none, "category_based".toList, some 10, some true,
    some [longName ++ ['B']]⟩

/-- First colliding search request: a long query ending in A, no filters. -/
def searchReqA : SearchRequest := ⟨longName ++ ['A'], none⟩

/-- Second colliding search request: same query ending in B. -/
def searchReqB : SearchRequest := ⟨longName ++ ['B'], none⟩

set_option maxRecDepth 40000

/-- Claim C9 (confirmed): both 250-character-truncated cache-key builders are
not injective - two distinct requests differing only past position 250 share
a key - and with the cache holding the first request's result under that key,
the second request is answered with it instead of its own computation. -/
theorem c9_cache_key_truncation_collision :
    recReqA ≠ recReqB
    ∧ buildRecommendationCacheKey recReqA = buildRecommendationCacheKey recReqB
    ∧ searchReqA ≠ searchReqB
    ∧ buildSearchCacheKey searchReqA = buildSearchCacheKey searchReqB
    ∧ getRecommendationsCached true
        (fun k => if k = buildRecommendationCacheKey recReqA then some 1 else none)
        (fun _ => 2) recReqB = 1 := by
  refine ⟨by decide, by decide, by decide, by decide, ?_⟩
  have hk : buildRecommendationCacheKey recReqB = buildRecommendationCacheKey recReqA := by
    decide
  rw [getRecommendationsCached, if_pos rfl, hk]
  simp
